import Mathlib

/-!
Shallow embedding of the url-shortener service, verified against its
natural-language specification.

The embedding covers:
* `src/authenthication.rs` — bearer-token introspection with a cache-aside
  strategy against an external identity provider (`introspect_token`,
  `get_cached_token`, `cache_token`, `token_key`);
* `src/service.rs` — the redirect repository (`list_by_email`,
  `get_by_id_and_email`, `create`, `delete`, `update`), the `RedirectKey`
  validator, and the `DbErr → InsertError` translation;
* `src/responses.rs` — `PagedResponse::new` and the `CursorDefault`
  cursor for `UrlRedirect`.

External effects (the key-value store, the identity provider HTTP call,
the relational store) are modelled as explicit state / explicit outcome
parameters; machine integers and UUIDs are `Nat`; fallible code returns
`Except`.
-/

namespace UrlShortener

/-! ## Definitions: authentication (`src/authenthication.rs`) -/

/-- `AuthenticationError` from `authenthication.rs`.  The `Internal`
variant carries a boxed error in the source; the payload is abstracted
away since no code inspects it. -/
inductive AuthenticationError where
  | Unauthorized : AuthenticationError
  | Internal : AuthenticationError
deriving Repr, DecidableEq

/-- The key-value store: an association list of `key ↦ (value, ttlSeconds)`.
This models the subset of redis used by the code: `GET key` and
`SET key value NX EX ttl`. -/
def Kvs : Type := List (String × String × Nat)

/-- `GET key`: the value stored at `key`, if present. -/
def kvsGet (kvs : Kvs) (key : String) : Option String :=
  (List.find? (fun e => e.1 == key) kvs).map (fun e => e.2.1)

/-- `SET key value NX EX ttl`: store `key ↦ value` with expiry `ttl` only
when `key` is absent; an existing entry is left untouched
(`redis::ExistenceCheck::NX` + `redis::SetExpiry::EX`). -/
def kvsSetNxEx (kvs : Kvs) (key value : String) (ttl : Nat) : Kvs :=
  if (kvsGet kvs key).isSome then kvs else (key, value, ttl) :: kvs

/-- `token_key` from `authenthication.rs`: `format!("token:{token}")`. -/
def token_key (token : String) : String :=
  "token:" ++ token

/-- `cache_token` from `authenthication.rs`: writes `token_key token ↦ value`
with `SetOptions::default().conditional_set(NX).with_expiration(EX(30))`. -/
def cache_token (kvs : Kvs) (token value : String) : Kvs :=
  kvsSetNxEx kvs (token_key token) value 30

/-- Outcome of the outbound `GET {host}/profile` call: either a
transport-level failure of `send()`, or an HTTP response with a status
code and the result of parsing the body as a `Profile` (`some email`
when the JSON parse succeeds, `none` when it fails). -/
inductive ProviderResult where
  | transportError : ProviderResult
  | response (status : Nat) (parsedEmail : Option String) : ProviderResult
deriving Repr, DecidableEq

/-- The status-dispatch `match` inside `introspect_token`
(`authenthication.rs` lines 117–144): 401 and 400 map to `Unauthorized`,
200 parses the body (parse failure is `Internal`), every other status and
any transport failure map to `Internal`. -/
def providerOutcome : ProviderResult → Except AuthenticationError String
  | .transportError => .error .Internal
  | .response status parsedEmail =>
    if status = 401 then .error .Unauthorized
    else if status = 400 then .error .Unauthorized
    else if status = 200 then
      match parsedEmail with
      | some email => .ok email
      | none => .error .Internal
    else .error .Internal

/-- `introspect_token` from `authenthication.rs`.
* `cacheReadOk = false` models a failed `get_cached_token` call (the
  `Err` arm of the `if let Ok(Some(email))`): the error is logged and the
  flow falls through to the provider exactly as on a miss.
* On a cache hit the cached email is returned and the provider is never
  consulted (the result does not depend on `provider`).
* On a miss, the provider outcome is mapped by `providerOutcome`; on
  success the spawned `cache_token` task runs (`writeOk = true`) or fails
  (`writeOk = false`) without affecting the returned value.
Returns the caller-visible result together with the key-value store
state after the background write. -/
def introspect_token (kvs : Kvs) (header : String) (cacheReadOk : Bool)
    (provider : ProviderResult) (writeOk : Bool) :
    Except AuthenticationError String × Kvs :=
  match (if cacheReadOk then kvsGet kvs (token_key header) else none) with
  | some email => (.ok email, kvs)
  | none =>
    match providerOutcome provider with
    | .error e => (.error e, kvs)
    | .ok email => (.ok email, if writeOk then cache_token kvs header email else kvs)

/-! ## Definitions: redirect repository (`src/service.rs`, `src/responses.rs`,
table layout from `migration/src/m20220101_000001_create_table.rs`) -/

namespace url_redirects

/-- A row of the `url_redirects` table: uuid primary key `id`,
`user_email`, globally unique `key`, `target`, and the two server-side
timestamps. -/
structure Model where
  id : Nat
  user_email : String
  key : String
  target : String
  created_at : Nat
  updated_at : Nat
deriving Repr, DecidableEq

end url_redirects

/-- `UrlRedirect` from `responses.rs`: the API-facing projection of a row,
built by `From<url_redirects::Model>` as `Self::new(id, key, target)`. -/
structure UrlRedirect where
  id : Nat
  key : String
  target : String
deriving Repr, DecidableEq

/-- `From<url_redirects::Model> for UrlRedirect` (`service.rs`
lines 253–257). -/
def toUrlRedirect (m : url_redirects.Model) : UrlRedirect :=
  { id := m.id, key := m.key, target := m.target }

/-- `CursorDefault::id` for `UrlRedirect` (`responses.rs` lines 54–58):
returns the `key` field, not the uuid `id`. -/
def cursorDefault_id (u : UrlRedirect) : String :=
  u.key

/-- `PagedResponse` from `responses.rs`. -/
structure PagedResponse where
  data : List UrlRedirect
  last : Option String
deriving Repr, DecidableEq

/-- `PagedResponse::new` (`responses.rs` lines 40–45):
`last = data.last().map(CursorDefault::id)`. -/
def PagedResponse.new (data : List UrlRedirect) : PagedResponse :=
  { data := data, last := (List.getLast? data).map cursorDefault_id }

/-- `RedirectKeyValidationFailed` from `service.rs`. -/
inductive RedirectKeyValidationFailed where
  | TooLong : RedirectKeyValidationFailed
  | InvalidCharacters (chars : List Char) : RedirectKeyValidationFailed
deriving Repr, DecidableEq

/-- Rust `char::is_ascii_alphanumeric`. -/
def is_ascii_alphanumeric (c : Char) : Bool :=
  (decide ('A' ≤ c) && decide (c ≤ 'Z')) ||
  (decide ('a' ≤ c) && decide (c ≤ 'z')) ||
  (decide ('0' ≤ c) && decide (c ≤ '9'))

/-- The filter predicate of the validator (`service.rs` line 108):
`!c.is_ascii_alphanumeric() && *c != '-' && *c != '_'`. -/
def isInvalidKeyChar (c : Char) : Bool :=
  !(is_ascii_alphanumeric c) && c != '-' && c != '_'

/-- `TryFrom<String> for RedirectKey` (`service.rs` lines 98–119).
`value.len()` in Rust is the UTF-8 byte length, hence `utf8ByteSize`.
On success the key wraps the input string unchanged. -/
def redirectKey_try_from (value : String) :
    Except RedirectKeyValidationFailed String :=
  if value.utf8ByteSize > 100 then .error .TooLong
  else
    let invalid_chars := value.data.filter isInvalidKeyChar
    if invalid_chars.isEmpty then .ok value
    else .error (.InvalidCharacters invalid_chars)

/-- The slice of `sea_orm::SqlErr` relevant to `service.rs`: a uniqueness
violation carrying the violated constraint description, or anything
else. -/
inductive SqlErr where
  | UniqueConstraintViolation (constraint : String) : SqlErr
  | other : SqlErr
deriving Repr, DecidableEq

/-- `sea_orm::DbErr`, modelled by what `sql_err()` extracts from it. -/
structure DbErr where
  sqlErr : Option SqlErr
deriving Repr, DecidableEq

/-- `InsertError` from `service.rs`. -/
inductive InsertError where
  | Database (e : DbErr) : InsertError
  | KeyAlreadyExists : InsertError
deriving Repr, DecidableEq

/-- Substring test on character lists (Rust `str::contains`). -/
def listContainsSub (needle : List Char) : List Char → Bool
  | [] => needle.isEmpty
  | c :: rest => List.isPrefixOf needle (c :: rest) || listContainsSub needle rest

/-- Rust `haystack.contains(pattern)` for strings. -/
def str_contains (haystack pattern : String) : Bool :=
  listContainsSub pattern.data haystack.data

/-- `From<sea_orm::DbErr> for InsertError` (`service.rs` lines 19–30):
a uniqueness violation whose description contains `url_redirects_key_key`
becomes `KeyAlreadyExists`; everything else becomes `Database`. -/
def InsertError.ofDbErr (e : DbErr) : InsertError :=
  match e.sqlErr with
  | some (.UniqueConstraintViolation key) =>
    if str_contains key "url_redirects_key_key" then .KeyAlreadyExists
    else .Database e
  | _ => .Database e

/-- `NewUrlRedirect` from `service.rs`; `key` holds the inner string of an
already validated `RedirectKey` (the `new_url.key.0` the code writes). -/
structure NewUrlRedirect where
  user_email : String
  key : String
  target : String
deriving Repr, DecidableEq

/-- The row predicate shared by `get_by_id_and_email`, `delete` and
`update`: `Column::Id.eq(id)` and `Column::UserEmail.eq(email)` combined
in one query filter. -/
def matches_id_and_email (id : Nat) (email : String)
    (r : url_redirects.Model) : Bool :=
  r.id == id && r.user_email == email

/-- `UrlService::get_by_id_and_email` (`service.rs` lines 186–197): a
single query filtered by id AND owner email, mapped into the response
type. -/
def get_by_id_and_email (db : List url_redirects.Model) (id : Nat)
    (email : String) : Option UrlRedirect :=
  (List.find? (matches_id_and_email id email) db).map toUrlRedirect

/-- `UrlService::get_by_key` (`service.rs` lines 199–205): unscoped lookup
by the globally unique key. -/
def get_by_key (db : List url_redirects.Model) (key : String) :
    Option UrlRedirect :=
  (List.find? (fun r => r.key == key) db).map toUrlRedirect

/-- `UrlService::delete` (`service.rs` lines 215–229): find the row by
id AND owner email in one query; when absent return `None` leaving the
store untouched; otherwise physically delete the row (by primary key)
and return the pre-deletion snapshot. -/
def delete (db : List url_redirects.Model) (user_email : String)
    (id : Nat) : Option UrlRedirect × List url_redirects.Model :=
  match List.find? (matches_id_and_email id user_email) db with
  | none => (none, db)
  | some url =>
    (some (toUrlRedirect url), List.filter (fun r => !(r.id == url.id)) db)

/-- The optional cursor filter of `list_by_email`
(`service.rs` lines 174–176): `Column::Key.gt(key)` when `after` is
supplied, otherwise no constraint. -/
def afterPred (after : Option String) (r : url_redirects.Model) : Bool :=
  match after with
  | none => true
  | some key => decide (key.data < r.key.data)

/-- Insertion of a row into a list sorted ascending by `key`.  Keys are
compared lexicographically by code point (`String.lt` is exactly
`data < data` on the character lists). -/
def insertByKey (r : url_redirects.Model) :
    List url_redirects.Model → List url_redirects.Model
  | [] => [r]
  | x :: xs =>
    if x.key.data < r.key.data then x :: insertByKey r xs else r :: x :: xs

/-- `ORDER BY key ASC`: insertion sort of the selected rows by `key`. -/
def sortByKey (l : List url_redirects.Model) : List url_redirects.Model :=
  l.foldr insertByKey []

/-- `UrlService::list_by_email` (`service.rs` lines 163–184): select the
rows of the owner that pass the cursor filter, order them ascending by
`key`, keep at most `limit`, and map into the response type. -/
def list_by_email (db : List url_redirects.Model) (user_email : String)
    (after : Option String) (limit : Nat) : List UrlRedirect :=
  ((sortByKey (db.filter
      (fun r => r.user_email == user_email && afterPred after r))).take
    limit).map toUrlRedirect

/-- `UrlService::update` (`service.rs` lines 231–250): find the row by id
AND owner email in one query; when absent return `None`; otherwise set
only `key`, `target` and `updated_at` (to the current time `now`) and
persist the rewritten row. -/
def update (db : List url_redirects.Model) (id : Nat)
    (new_url : NewUrlRedirect) (now : Nat) :
    Option UrlRedirect × List url_redirects.Model :=
  match List.find? (matches_id_and_email id new_url.user_email) db with
  | none => (none, db)
  | some url =>
    let updated : url_redirects.Model :=
      { url with key := new_url.key, target := new_url.target,
                 updated_at := now }
    (some (toUrlRedirect updated),
     db.map (fun r => if r.id == url.id then updated else r))

/-- `UrlService::create` (`service.rs` lines 207–213) as a function of the
store's insert outcome: success is mapped into the response type, a store
error is translated by `From<DbErr> for InsertError` (the `map_err`). -/
def create (storeResult : Except DbErr url_redirects.Model) :
    Except InsertError UrlRedirect :=
  match storeResult with
  | .ok m => .ok (toUrlRedirect m)
  | .error e => .error (InsertError.ofDbErr e)

/-- The error plumbing of `UrlService::update` as a function of the two
store outcomes (the scoped find and the row save): each `?` translates a
`DbErr` through the same `From<DbErr> for InsertError`. -/
def update_store (findResult : Except DbErr (Option url_redirects.Model))
    (saveResult : Except DbErr url_redirects.Model) :
    Except InsertError (Option UrlRedirect) :=
  match findResult with
  | .error e => .error (InsertError.ofDbErr e)
  | .ok none => .ok none
  | .ok (some _) =>
    match saveResult with
    | .error e => .error (InsertError.ofDbErr e)
    | .ok m => .ok (some (toUrlRedirect m))

/-! ## Theorems -/

/-- C1: on a cache miss, a provider status of 400 or 401 yields `Unauthorized`;
any other non-200 status, and a transport-level failure, yield `Internal`,
never `Unauthorized`. -/
theorem introspect_token_status_mapping (kvs : Kvs) (header : String)
    (writeOk : Bool) (status : Nat) (body : Option String)
    (hmiss : kvsGet kvs (token_key header) = none) :
    ((status = 400 ∨ status = 401) →
      (introspect_token kvs header true (.response status body) writeOk).1 =
        .error .Unauthorized) ∧
    ((status ≠ 200 ∧ status ≠ 400 ∧ status ≠ 401) →
      (introspect_token kvs header true (.response status body) writeOk).1 =
        .error .Internal) ∧
    (introspect_token kvs header true .transportError writeOk).1 =
      .error .Internal := by
  refine ⟨fun h => ?_, fun h => ?_, ?_⟩
  · rcases h with h | h <;>
      simp [introspect_token, providerOutcome, hmiss, h]
  · obtain ⟨h200, h400, h401⟩ := h
    simp [introspect_token, providerOutcome, hmiss, h200, h400, h401]
  · simp [introspect_token, providerOutcome, hmiss]

/-- Witness for C1 at concrete inputs: an empty cache, status 400 gives
`Unauthorized`, status 503 gives `Internal`, transport failure gives
`Internal`. -/
theorem introspect_token_status_mapping_witness :
    (introspect_token [] "tok" true (.response 400 none) true).1 =
      .error .Unauthorized ∧
    (introspect_token [] "tok" true (.response 503 none) true).1 =
      .error .Internal ∧
    (introspect_token [] "tok" true .transportError true).1 =
      .error .Internal := by
  have h := introspect_token_status_mapping [] "tok" true 400 none rfl
  have h2 := introspect_token_status_mapping [] "tok" true 503 none rfl
  exact ⟨h.1 (Or.inl rfl), h2.2.1 (by decide), h2.2.2⟩

/-- C2: after a successful provider call, the caller-visible result is the
same whether the background cache write succeeds or fails; the write that
runs is exactly `cache_token`, a set-if-not-present write with a fixed
30-second expiry which never overwrites a value already cached for the
same token. -/
theorem introspect_token_cache_write (kvs : Kvs) (header email : String)
    (provider : ProviderResult) (hp : providerOutcome provider = .ok email) :
    ((introspect_token kvs header true provider true).1 =
        (introspect_token kvs header true provider false).1) ∧
    ((kvsGet kvs (token_key header)).isNone →
      (introspect_token kvs header true provider true).1 = .ok email) ∧
    ((kvsGet kvs (token_key header)).isNone →
      (introspect_token kvs header true provider true).2 =
        cache_token kvs header email) ∧
    (∀ kvs' : Kvs, ∀ v, kvsGet kvs' (token_key header) = some v →
      cache_token kvs' header email = kvs') ∧
    ((kvsGet kvs (token_key header)).isNone →
      cache_token kvs header email = (token_key header, email, 30) :: kvs) := by
  refine ⟨?_, fun hnone => ?_, fun hnone => ?_, fun kvs' v hv => ?_,
    fun hnone => ?_⟩
  · cases hc : kvsGet kvs (token_key header) with
    | some e => simp [introspect_token, hc]
    | none => simp [introspect_token, hc, hp]
  · rw [Option.isNone_iff_eq_none] at hnone
    simp [introspect_token, hnone, hp]
  · rw [Option.isNone_iff_eq_none] at hnone
    simp [introspect_token, hnone, hp]
  · simp [cache_token, kvsSetNxEx, hv]
  · rw [Option.isNone_iff_eq_none] at hnone
    simp [cache_token, kvsSetNxEx, hnone]

/-- Witness for C2 at concrete inputs: provider success with email `"e"`;
with the token already cached as `"old"` the write leaves the cache
untouched, and the result returned to the caller is `.ok "e"` whether the
background write succeeds or fails. -/
theorem introspect_token_cache_write_witness :
    cache_token [("token:tok", "old", 30)] "tok" "e" =
      [("token:tok", "old", 30)] ∧
    (introspect_token [] "tok" true (.response 200 (some "e")) true).1 =
      .ok "e" ∧
    (introspect_token [] "tok" true (.response 200 (some "e")) false).1 =
      .ok "e" ∧
    cache_token [] "tok" "e" = [("token:tok", "e", 30)] := by
  have h := introspect_token_cache_write [] "tok" "e"
    (.response 200 (some "e")) rfl
  have hcached := introspect_token_cache_write [("token:tok", "old", 30)]
    "tok" "e" (.response 200 (some "e")) rfl
  refine ⟨hcached.2.2.2.1 [("token:tok", "old", 30)] "old" rfl, ?_, ?_,
    h.2.2.2.2 rfl⟩
  · exact h.2.1 rfl
  · rw [← h.1]; exact h.2.1 rfl

/-- C3: a cache read failure is treated exactly as a miss — the provider
is still called and decides the outcome, the read error is never surfaced;
a cache hit returns the cached email with no provider call (the outcome
does not depend on the provider at all). -/
theorem introspect_token_cache_read (kvs : Kvs) (header : String)
    (provider : ProviderResult) (writeOk : Bool) :
    ((introspect_token kvs header false provider writeOk).1 =
      providerOutcome provider) ∧
    ((introspect_token kvs header false provider writeOk).1 =
      (introspect_token [] header true provider writeOk).1) ∧
    (∀ email, kvsGet kvs (token_key header) = some email →
      introspect_token kvs header true provider writeOk = (.ok email, kvs)) := by
  refine ⟨?_, ?_, fun email hhit => ?_⟩
  · cases hp : providerOutcome provider with
    | error e => simp [introspect_token, hp]
    | ok email => simp [introspect_token, hp]
  · have hempty : kvsGet ([] : Kvs) (token_key header) = none := rfl
    cases hp : providerOutcome provider with
    | error e => simp [introspect_token, hp, hempty]
    | ok email => simp [introspect_token, hp, hempty]
  · simp [introspect_token, hhit]

/-- Witness for C3 at concrete inputs: with `"tok" ↦ "cached"` in the
cache, a failed read still calls the provider (whose `Unauthorized`
decides the outcome), while a successful read returns `"cached"`
regardless of the provider. -/
theorem introspect_token_cache_read_witness :
    (introspect_token [("token:tok", "cached", 30)] "tok" false
      (.response 401 none) true).1 = .error .Unauthorized ∧
    introspect_token [("token:tok", "cached", 30)] "tok" true
      (.response 401 none) true =
      (.ok "cached", [("token:tok", "cached", 30)]) := by
  have h := introspect_token_cache_read [("token:tok", "cached", 30)] "tok"
    (.response 401 none) true
  exact ⟨h.1, h.2.2 "cached" rfl⟩

/-- C4: when no record matches both the id and the owner email — in
particular when the id exists under a different owner — the single
conjunctive query predicate makes `get_by_id_and_email` return `none` and
`delete` return `none` while leaving the store untouched. -/
theorem ownership_scoped_absence (db : List url_redirects.Model) (id : Nat)
    (email : String)
    (h : ∀ r ∈ db, ¬(r.id = id ∧ r.user_email = email)) :
    get_by_id_and_email db id email = none ∧
    (delete db email id).1 = none ∧
    (delete db email id).2 = db := by
  have hfind : List.find? (matches_id_and_email id email) db = none := by
    rw [List.find?_eq_none]
    intro r hr hpred
    simp only [matches_id_and_email, Bool.and_eq_true, beq_iff_eq] at hpred
    exact h r hr hpred
  refine ⟨?_, ?_, ?_⟩ <;> simp [get_by_id_and_email, delete, hfind]

/-- Witness for C4 at a concrete input: the record with id 1 exists but
belongs to `"alice"`, so lookup and delete for `"bob"` both report
absence and the store is unchanged. -/
theorem ownership_scoped_absence_witness :
    get_by_id_and_email [⟨1, "alice", "k", "t", 0, 0⟩] 1 "bob" = none ∧
    (delete [⟨1, "alice", "k", "t", 0, 0⟩] "bob" 1).1 = none ∧
    (delete [⟨1, "alice", "k", "t", 0, 0⟩] "bob" 1).2 =
      [⟨1, "alice", "k", "t", 0, 0⟩] := by
  exact ownership_scoped_absence [⟨1, "alice", "k", "t", 0, 0⟩] 1 "bob"
    (by decide)

/-- C5: a store error reporting a uniqueness violation on the key column
(the `url_redirects_key_key` constraint) is translated to
`KeyAlreadyExists`; any other store error becomes the generic `Database`
error; both `create` and `update` route their store errors through this
one translation. -/
theorem insert_error_translation (e : DbErr) (m : url_redirects.Model)
    (save : Except DbErr url_redirects.Model) :
    ((∃ k, e.sqlErr = some (.UniqueConstraintViolation k) ∧
        str_contains k "url_redirects_key_key" = true) →
      InsertError.ofDbErr e = .KeyAlreadyExists) ∧
    ((¬ ∃ k, e.sqlErr = some (.UniqueConstraintViolation k) ∧
        str_contains k "url_redirects_key_key" = true) →
      InsertError.ofDbErr e = .Database e) ∧
    create (.error e) = .error (InsertError.ofDbErr e) ∧
    update_store (.error e) save = .error (InsertError.ofDbErr e) ∧
    update_store (.ok (some m)) (.error e) =
      .error (InsertError.ofDbErr e) := by
  refine ⟨fun h => ?_, fun h => ?_, rfl, rfl, rfl⟩
  · obtain ⟨k, hk, hc⟩ := h
    simp [InsertError.ofDbErr, hk, hc]
  · match he : e.sqlErr with
    | none => simp [InsertError.ofDbErr, he]
    | some (.UniqueConstraintViolation k) =>
      have hc : str_contains k "url_redirects_key_key" = false := by
        by_contra hc
        exact h ⟨k, he, by simpa using hc⟩
      simp [InsertError.ofDbErr, he, hc]
    | some .other => simp [InsertError.ofDbErr, he]

/-- Witness for C5 at concrete inputs: a violation naming the key
constraint becomes `KeyAlreadyExists` (also through `create`), while a
violation of a different constraint stays a `Database` error. -/
theorem insert_error_translation_witness :
    InsertError.ofDbErr
      ⟨some (.UniqueConstraintViolation "url_redirects_key_key")⟩ =
      .KeyAlreadyExists ∧
    create (.error ⟨some (.UniqueConstraintViolation "url_redirects_key_key")⟩) =
      .error .KeyAlreadyExists ∧
    InsertError.ofDbErr ⟨some (.UniqueConstraintViolation "other_key")⟩ =
      .Database ⟨some (.UniqueConstraintViolation "other_key")⟩ := by
  have h1 := insert_error_translation
    ⟨some (.UniqueConstraintViolation "url_redirects_key_key")⟩
    ⟨0, "", "", "", 0, 0⟩ (.error ⟨none⟩)
  have h2 := insert_error_translation
    ⟨some (.UniqueConstraintViolation "other_key")⟩
    ⟨0, "", "", "", 0, 0⟩ (.error ⟨none⟩)
  have hk := h1.1 ⟨"url_redirects_key_key", rfl, by decide⟩
  have hneg : ¬ ∃ k,
      (⟨some (.UniqueConstraintViolation "other_key")⟩ : DbErr).sqlErr =
        some (.UniqueConstraintViolation k) ∧
      str_contains k "url_redirects_key_key" = true := by
    rintro ⟨k, hk2, hc⟩
    have hk3 : "other_key" = k := by
      injection hk2 with hk4
      injection hk4
    exact absurd hc (by rw [← hk3]; decide)
  refine ⟨hk, ?_, h2.2.1 hneg⟩
  rw [h1.2.2.1, hk]

/-- C7: the validator checks its rules in order with first match winning —
a byte length over 100 fails with `TooLong` (regardless of the
characters), otherwise any character outside `[A-Za-z0-9_-]` fails with
`InvalidCharacters`, otherwise the key is accepted unchanged. -/
theorem redirectKey_validation_order (value : String) :
    (value.utf8ByteSize > 100 →
      redirectKey_try_from value = .error .TooLong) ∧
    (value.utf8ByteSize ≤ 100 →
      (∃ c ∈ value.data, isInvalidKeyChar c = true) →
      redirectKey_try_from value =
        .error (.InvalidCharacters (value.data.filter isInvalidKeyChar))) ∧
    (value.utf8ByteSize ≤ 100 →
      (∀ c ∈ value.data, isInvalidKeyChar c = false) →
      redirectKey_try_from value = .ok value) := by
  refine ⟨fun h => ?_, fun hlen h => ?_, fun hlen h => ?_⟩
  · simp [redirectKey_try_from, h]
  · have hne : value.data.filter isInvalidKeyChar ≠ [] := by
      obtain ⟨c, hc, hic⟩ := h
      exact List.ne_nil_of_mem (List.mem_filter.mpr ⟨hc, hic⟩)
    have hnotlong : ¬ value.utf8ByteSize > 100 := by omega
    simp only [redirectKey_try_from, if_neg hnotlong]
    rw [if_neg]
    simpa [List.isEmpty_iff] using hne
  · have hnil : value.data.filter isInvalidKeyChar = [] := by
      rw [List.filter_eq_nil_iff]
      intro a ha
      simp [h a ha]
    have hnotlong : ¬ value.utf8ByteSize > 100 := by omega
    simp only [redirectKey_try_from, if_neg hnotlong]
    rw [if_pos]
    simp [List.isEmpty_iff, hnil]

/-- Witness for C7 at the specification's three test vectors:
`"abc-123_XY"` validates, 101 valid characters fail with `TooLong`, and
`"a b"` fails with `InvalidCharacters` containing the space. -/
theorem redirectKey_validation_order_witness :
    redirectKey_try_from "abc-123_XY" = .ok "abc-123_XY" ∧
    redirectKey_try_from (String.mk (List.replicate 101 'a')) =
      .error .TooLong ∧
    redirectKey_try_from "a b" = .error (.InvalidCharacters [' ']) := by
  have h1 := redirectKey_validation_order "abc-123_XY"
  have h2 := redirectKey_validation_order (String.mk (List.replicate 101 'a'))
  have h3 := redirectKey_validation_order "a b"
  refine ⟨h1.2.2 (by decide) (by decide), h2.1 (by decide), ?_⟩
  have h := h3.2.1 (by decide) ⟨' ', by decide, by decide⟩
  have hf : "a b".data.filter isInvalidKeyChar = [' '] := by decide
  rw [hf] at h
  exact h

/-- C8 counterexample: for the input `"!!"` the reported collection is
`['!', '!']` — the offending character `'!'` appears twice, so the
collection is not duplicate-free as the claim states. -/
theorem invalid_chars_not_a_set :
    redirectKey_try_from "!!" = .error (.InvalidCharacters ['!', '!']) ∧
    ¬ (['!', '!'] : List Char).Nodup ∧
    List.count '!' ['!', '!'] = 2 := by
  exact ⟨rfl, by decide, by decide⟩

/-- C8 (amended): whenever validation fails with `InvalidCharacters`, the
reported collection is the sublist of offending characters of the input in
input order: every character of the input outside `[A-Za-z0-9_-]` appears
in it, no valid character appears, and each offending character appears
once per offending occurrence (its multiplicity in the input). -/
theorem invalid_chars_collection (value : String) (l : List Char)
    (h : redirectKey_try_from value = .error (.InvalidCharacters l)) :
    l = value.data.filter isInvalidKeyChar ∧
    (∀ c ∈ value.data, isInvalidKeyChar c = true → c ∈ l) ∧
    (∀ c ∈ l, isInvalidKeyChar c = true ∧ c ∈ value.data) ∧
    (∀ c, isInvalidKeyChar c = true →
      List.count c l = List.count c value.data) := by
  have hl : l = value.data.filter isInvalidKeyChar := by
    by_cases hlen : value.utf8ByteSize > 100
    · simp [redirectKey_try_from, hlen] at h
    · by_cases hemp : (value.data.filter isInvalidKeyChar).isEmpty
      · simp only [redirectKey_try_from, if_neg hlen] at h
        rw [if_pos hemp] at h
        exact absurd h (by simp)
      · simp only [redirectKey_try_from, if_neg hlen] at h
        rw [if_neg hemp] at h
        injection h with h2
        injection h2 with h3
        exact h3.symm
  subst hl
  refine ⟨rfl, fun c hc hic => List.mem_filter.mpr ⟨hc, hic⟩,
    fun c hc => ?_, fun c hic => List.count_filter hic⟩
  have h2 := List.mem_filter.mp hc
  exact ⟨h2.2, h2.1⟩

/-- Witness for C8 (amended) at the input `"a b"`: the collection is
`[' ']`, the space belongs to it, only invalid characters belong to it,
and the multiplicity of `' '` matches the input. -/
theorem invalid_chars_collection_witness :
    ([' '] : List Char) = "a b".data.filter isInvalidKeyChar ∧
    (' ' ∈ ([' '] : List Char)) ∧
    (isInvalidKeyChar ' ' = true ∧ ' ' ∈ "a b".data) ∧
    List.count ' ' ([' '] : List Char) = List.count ' ' "a b".data := by
  have h := invalid_chars_collection "a b" [' '] rfl
  exact ⟨h.1, h.2.1 ' ' (by decide) (by decide), h.2.2.1 ' ' (by decide),
    h.2.2.2 ' ' (by decide)⟩

/-- Membership is preserved by sorted insertion. -/
theorem mem_insertByKey (r x : url_redirects.Model)
    (l : List url_redirects.Model) :
    x ∈ insertByKey r l ↔ x = r ∨ x ∈ l := by
  induction l with
  | nil => simp [insertByKey]
  | cons y ys ih =>
    by_cases h : y.key.data < r.key.data
    · simp only [insertByKey, if_pos h, List.mem_cons, ih]
      tauto
    · simp only [insertByKey, if_neg h, List.mem_cons]

/-- Sorted insertion preserves ordering by `key`. -/
theorem pairwise_insertByKey (r : url_redirects.Model)
    (l : List url_redirects.Model)
    (hl : l.Pairwise (fun a b => a.key.data ≤ b.key.data)) :
    (insertByKey r l).Pairwise (fun a b => a.key.data ≤ b.key.data) := by
  induction l with
  | nil => simp [insertByKey]
  | cons y ys ih =>
    obtain ⟨hy, hys⟩ := List.pairwise_cons.mp hl
    by_cases h : y.key.data < r.key.data
    · simp only [insertByKey, if_pos h]
      rw [List.pairwise_cons]
      refine ⟨fun b hb => ?_, ih hys⟩
      rcases (mem_insertByKey r b ys).mp hb with rfl | hb
      · exact le_of_lt h
      · exact hy b hb
    · simp only [insertByKey, if_neg h]
      rw [List.pairwise_cons]
      refine ⟨fun b hb => ?_, hl⟩
      rcases List.mem_cons.mp hb with rfl | hb
      · exact le_of_not_lt h
      · exact le_trans (le_of_not_lt h) (hy b hb)

/-- The insertion sort by `key` produces a list ordered ascending by
`key`. -/
theorem pairwise_sortByKey (l : List url_redirects.Model) :
    (sortByKey l).Pairwise (fun a b => a.key.data ≤ b.key.data) := by
  induction l with
  | nil => simp [sortByKey]
  | cons x xs ih =>
    rw [show sortByKey (x :: xs) = insertByKey x (sortByKey xs) from rfl]
    exact pairwise_insertByKey x _ ih

/-- The insertion sort by `key` preserves membership. -/
theorem mem_sortByKey (x : url_redirects.Model)
    (l : List url_redirects.Model) :
    x ∈ sortByKey l ↔ x ∈ l := by
  induction l with
  | nil => simp [sortByKey]
  | cons y ys ih =>
    rw [show sortByKey (y :: ys) = insertByKey y (sortByKey ys) from rfl,
      mem_insertByKey, ih, List.mem_cons]

/-- C6: `list_by_email` returns at most `limit` records, ordered ascending
by `key` (lexicographically by code point), all drawn from the owner's
records, and — when `after` is supplied — only records whose `key` is
strictly greater than `after`. -/
theorem list_by_email_page (db : List url_redirects.Model) (email : String)
    (after : Option String) (limit : Nat) :
    (list_by_email db email after limit).length ≤ limit ∧
    (list_by_email db email after limit).Pairwise
      (fun a b => a.key.data ≤ b.key.data) ∧
    (∀ u ∈ list_by_email db email after limit,
      ∃ r ∈ db, r.user_email = email ∧ u = toUrlRedirect r) ∧
    (∀ a, after = some a →
      ∀ u ∈ list_by_email db email after limit, a.data < u.key.data) := by
  refine ⟨?_, ?_, ?_, ?_⟩
  · rw [list_by_email, List.length_map, List.length_take]
    exact Nat.min_le_left _ _
  · rw [list_by_email, List.pairwise_map]
    exact (pairwise_sortByKey _).sublist (List.take_sublist _ _)
  · intro u hu
    rw [list_by_email] at hu
    obtain ⟨m, hm, rfl⟩ := List.mem_map.mp hu
    have hm2 := (mem_sortByKey _ _).mp (List.mem_of_mem_take hm)
    obtain ⟨hdb, hpred⟩ := List.mem_filter.mp hm2
    rw [Bool.and_eq_true] at hpred
    exact ⟨m, hdb, beq_iff_eq.mp hpred.1, rfl⟩
  · intro a ha u hu
    subst ha
    rw [list_by_email] at hu
    obtain ⟨m, hm, rfl⟩ := List.mem_map.mp hu
    have hm2 := (mem_sortByKey _ _).mp (List.mem_of_mem_take hm)
    obtain ⟨hdb, hpred⟩ := List.mem_filter.mp hm2
    rw [Bool.and_eq_true] at hpred
    have h2 := hpred.2
    simp only [afterPred, decide_eq_true_eq] at h2
    exact h2

/-- Witness for C6 at the specification's example: an owner with keys
`["a", "b", "c"]`; the first page of size 2 is `["a", "b"]`, the page
after cursor `"b"` is `["c"]`, and the page bound from the theorem holds
at this input. -/
theorem list_by_email_page_witness :
    (list_by_email
      [⟨1, "o", "a", "t1", 0, 0⟩, ⟨2, "o", "b", "t2", 0, 0⟩,
       ⟨3, "o", "c", "t3", 0, 0⟩] "o" none 2).length ≤ 2 ∧
    list_by_email
      [⟨1, "o", "a", "t1", 0, 0⟩, ⟨2, "o", "b", "t2", 0, 0⟩,
       ⟨3, "o", "c", "t3", 0, 0⟩] "o" none 2 =
      [⟨1, "a", "t1"⟩, ⟨2, "b", "t2"⟩] ∧
    list_by_email
      [⟨1, "o", "a", "t1", 0, 0⟩, ⟨2, "o", "b", "t2", 0, 0⟩,
       ⟨3, "o", "c", "t3", 0, 0⟩] "o" (some "b") 2 =
      [⟨3, "c", "t3"⟩] ∧
    ("b" : String).data < (UrlRedirect.mk 3 "c" "t3").key.data := by
  have h := list_by_email_page
    [⟨1, "o", "a", "t1", 0, 0⟩, ⟨2, "o", "b", "t2", 0, 0⟩,
     ⟨3, "o", "c", "t3", 0, 0⟩] "o" (some "b") 2
  refine ⟨(list_by_email_page _ "o" none 2).1, by decide, by decide, ?_⟩
  exact h.2.2.2 "b" rfl ⟨3, "c", "t3"⟩ (by decide)

/-- C9: a successful `update` rewrites only `key`, `target` and
`updated_at` (to the supplied current time); the record's `id`,
`user_email` and `created_at` are carried over unchanged from the stored
record, and the store replaces exactly that row. -/
theorem update_rewrites_only_mutable_fields (db : List url_redirects.Model)
    (id : Nat) (new_url : NewUrlRedirect) (now : Nat)
    (url : url_redirects.Model)
    (h : List.find? (matches_id_and_email id new_url.user_email) db =
      some url) :
    ∃ updated : url_redirects.Model,
      (update db id new_url now).1 = some (toUrlRedirect updated) ∧
      updated.id = url.id ∧
      updated.user_email = url.user_email ∧
      updated.created_at = url.created_at ∧
      updated.key = new_url.key ∧
      updated.target = new_url.target ∧
      updated.updated_at = now ∧
      (update db id new_url now).2 =
        db.map (fun r => if r.id == url.id then updated else r) := by
  refine ⟨⟨url.id, url.user_email, new_url.key, new_url.target,
    url.created_at, now⟩, ?_, rfl, rfl, rfl, rfl, rfl, rfl, ?_⟩
  · simp [update, h]
  · simp [update, h]

/-- Witness for C9 at a concrete input: updating record 1 of owner `"o"`
rewrites `key`/`target`/`updated_at` while keeping `id` 1, owner `"o"`
and `created_at` 5. -/
theorem update_rewrites_only_mutable_fields_witness :
    (update [⟨1, "o", "k", "t", 5, 5⟩] 1 ⟨"o", "k2", "t2"⟩ 9).1 =
      some ⟨1, "k2", "t2"⟩ ∧
    (update [⟨1, "o", "k", "t", 5, 5⟩] 1 ⟨"o", "k2", "t2"⟩ 9).2 =
      [⟨1, "o", "k2", "t2", 5, 9⟩] := by
  obtain ⟨u, h1, hid, hem, hca, hk, ht, hua, h2⟩ :=
    update_rewrites_only_mutable_fields [⟨1, "o", "k", "t", 5, 5⟩] 1
      ⟨"o", "k2", "t2"⟩ 9 ⟨1, "o", "k", "t", 5, 5⟩ rfl
  obtain ⟨uid, uem, ukey, utar, uca, uua⟩ := u
  simp only at hid hem hca hk ht hua
  subst hid hem hca hk ht hua
  exact ⟨h1, by simpa using h2⟩

/-- C10: the `last` cursor of a page is the `key` of the final record of
the page (via `CursorDefault::id`, which returns `key`, not the uuid
`id`), and is absent exactly when the page is empty. -/
theorem paged_response_last_cursor (data : List UrlRedirect) :
    (PagedResponse.new data).last =
      (List.getLast? data).map (fun u => u.key) ∧
    ((PagedResponse.new data).last = none ↔ data = []) ∧
    (∀ front u, data = front ++ [u] →
      (PagedResponse.new data).last = some u.key) := by
  refine ⟨rfl, ?_, fun front u h => ?_⟩
  · constructor
    · intro h
      cases data with
      | nil => rfl
      | cons x xs =>
        exfalso
        simp only [PagedResponse.new, Option.map_eq_none] at h
        exact absurd h (by simp)
    · rintro rfl
      rfl
  · subst h
    simp [PagedResponse.new, List.getLast?_concat, cursorDefault_id]

/-- Witness for C10 at concrete inputs: a two-record page exposes the
final record's `key` `"b"` as cursor, and the empty page exposes no
cursor. -/
theorem paged_response_last_cursor_witness :
    (PagedResponse.new [⟨1, "a", "t"⟩, ⟨2, "b", "t2"⟩]).last = some "b" ∧
    (PagedResponse.new []).last = none := by
  have h := paged_response_last_cursor [⟨1, "a", "t"⟩, ⟨2, "b", "t2"⟩]
  have h2 := paged_response_last_cursor []
  exact ⟨h.2.2 [⟨1, "a", "t"⟩] ⟨2, "b", "t2"⟩ rfl, h2.2.1.mpr rfl⟩

end UrlShortener
